import Mathlib

/-!
Shallow embedding of `new_stock_pusher.py` (stock-pusher-render).

The program is a single-threaded scheduler loop around four parts:
a calendar policy (`is_trading_day`, `is_in_trading_hours`), a persisted
notification ledger (`has_pushed_today`, `update_push_status` over the file
`pushed_status.json`), a data-source client (`crawl_new_stocks`) and a
notifier (`send_wechat_message`).  The loop body (`NewStockPusher.run`) is
embedded as a pure step function `stepLoop` over the ledger-file contents,
with the per-cycle nondeterminism (the wall clock, the network fetch outcome
and the webhook response) passed in as an explicit `CycleInput`.

Python's `datetime` values are modelled with second granularity
(microseconds are dropped; no comparison in this program is decided by
sub-second digits on the paths the theorems speak about).  Each loop cycle
samples the clock several times in the source; the embedding uses one
`DateTime` sample per cycle.
-/

namespace StockPusher

/-- Calendar date, as carried by a Python `datetime` (year 1–9999). -/
structure Date where
  year : Nat
  month : Nat
  day : Nat
deriving DecidableEq, Repr

/-- Time of day with second granularity. -/
structure TimeOfDay where
  hour : Nat
  minute : Nat
  second : Nat
deriving DecidableEq, Repr

/-- A wall-clock sample, standing for one `datetime.now()` value. -/
structure DateTime where
  date : Date
  time : TimeOfDay
deriving DecidableEq, Repr

/-- Gregorian leap-year rule, as in Python's `calendar.isleap`. -/
def Date.isLeap (y : Nat) : Bool :=
  (y % 4 == 0 && y % 100 != 0) || y % 400 == 0

/-- Days in the year before the first day of month `m` (1-based). -/
def Date.daysBeforeMonth (leap : Bool) (m : Nat) : Nat :=
  [0, 31, 59, 90, 120, 151, 181, 212, 243, 273, 304, 334].getD (m - 1) 0 +
    (if leap && m > 2 then 1 else 0)

/-- Proleptic-Gregorian ordinal of a date, as Python's `date.toordinal`
(ordinal 1 is 0001-01-01, a Monday). -/
def Date.toordinal (d : Date) : Nat :=
  let y := d.year - 1
  365 * y + y / 4 - y / 100 + y / 400 + Date.daysBeforeMonth (Date.isLeap d.year) d.month + d.day

/-- Weekday in Python's `date.weekday` scheme: 0 = Monday … 6 = Sunday. -/
def Date.weekday (d : Date) : Nat :=
  (d.toordinal + 6) % 7

/-- Seconds since the proleptic epoch; the order embedding of `datetime`
comparison and the measure behind `timedelta.total_seconds()`. -/
def toSeconds (dt : DateTime) : Nat :=
  dt.date.toordinal * 86400 + dt.time.hour * 3600 + dt.time.minute * 60 + dt.time.second

/-- The static trading-window configuration `self.trading_hours`. -/
structure TradingHoursCfg where
  morning : Nat × Nat × Nat × Nat
  afternoon : Nat × Nat × Nat × Nat

/-- Source: `{'morning': (9, 30, 11, 30), 'afternoon': (13, 0, 15, 0)}`. -/
def trading_hours : TradingHoursCfg :=
  { morning := (9, 30, 11, 30), afternoon := (13, 0, 15, 0) }

/-- Embedding of `NewStockPusher.is_trading_day`; `testMode` is the
`TEST_MODE` environment flag. -/
def is_trading_day (testMode : Bool) (now : DateTime) : Bool :=
  if testMode then
    true
  else
    decide (now.date.weekday < 5)

/-- Embedding of `NewStockPusher.is_in_trading_hours`. -/
def is_in_trading_hours (testMode : Bool) (now : DateTime) : Bool :=
  if testMode then
    true
  else
    let h := now.time.hour
    let m := now.time.minute
    let (m_start_h, m_start_m, m_end_h, m_end_m) := trading_hours.morning
    let in_morning := (decide (h > m_start_h) || (decide (h = m_start_h) && decide (m ≥ m_start_m))) &&
      (decide (h < m_end_h) || (decide (h = m_end_h) && decide (m ≤ m_end_m)))
    let (a_start_h, a_start_m, a_end_h, a_end_m) := trading_hours.afternoon
    let in_afternoon := (decide (h > a_start_h) || (decide (h = a_start_h) && decide (m ≥ a_start_m))) &&
      (decide (h < a_end_h) || (decide (h = a_end_h) && decide (m ≤ a_end_m)))
    in_morning || in_afternoon

/-- Lexicographic order on (hour, minute) pairs, the order the spec uses to
describe the trading windows. -/
def lexLE (h1 m1 h2 m2 : Nat) : Prop :=
  h1 < h2 ∨ (h1 = h2 ∧ m1 ≤ m2)

instance (h1 m1 h2 m2 : Nat) : Decidable (lexLE h1 m1 h2 m2) := by
  unfold lexLE
  infer_instance

/-- A concrete `DateTime` on Monday 2026-10-12, used for boundary checks. -/
def mondayAt (h m : Nat) : DateTime :=
  { date := { year := 2026, month := 10, day := 12 }, time := { hour := h, minute := m, second := 0 } }

/-! ### Notification ledger (the file `pushed_status.json`)

The ledger file is modelled as `Option (List Char)`: `none` is an absent
file (opening raises, and `has_pushed_today` swallows the exception), and
`some cs` is the file contents.  `update_push_status` writes
`str({'last_pushed_date': …, 'last_pushed_time': …})`; `has_pushed_today`
strips the contents and re-parses them.  The source parses by evaluating
the stored text; `parseStatus` models that evaluation restricted to the
shape the ledger itself writes — any other (corrupt) content is a parse
failure, which the source's bare `except` turns into `False`. -/

/-- The single-quote character used by Python's `str(dict)` rendering. -/
def sq : Char := Char.ofNat 39

/-- Opening brace of the rendered dict. -/
def lbrace : Char := Char.ofNat 123

/-- Closing brace of the rendered dict. -/
def rbrace : Char := Char.ofNat 125

/-- Two-digit zero-padded decimal rendering (strftime `%m`, `%d`, `%H`, …). -/
def pad2 (n : Nat) : List Char :=
  [Nat.digitChar (n / 10 % 10), Nat.digitChar (n % 10)]

/-- Four-digit zero-padded decimal rendering (strftime `%Y`; datetime years
are at most 9999). -/
def pad4 (n : Nat) : List Char :=
  [Nat.digitChar (n / 1000 % 10), Nat.digitChar (n / 100 % 10),
   Nat.digitChar (n / 10 % 10), Nat.digitChar (n % 10)]

/-- Model of `strftime('%Y-%m-%d')`. -/
def fmtDate (d : Date) : List Char :=
  pad4 d.year ++ '-' :: pad2 d.month ++ '-' :: pad2 d.day

/-- Model of `strftime('%H:%M:%S')`. -/
def fmtTime (t : TimeOfDay) : List Char :=
  pad2 t.hour ++ ':' :: pad2 t.minute ++ ':' :: pad2 t.second

/-- The parsed ledger record `{'last_pushed_date': …, 'last_pushed_time': …}`. -/
structure PushStatus where
  last_pushed_date : List Char
  last_pushed_time : List Char
deriving DecidableEq, Repr

/-- Everything of the rendered dict between the outer braces. -/
def statusMid (d t : List Char) : List Char :=
  sq :: "last_pushed_date".toList ++ sq :: ':' :: ' ' :: sq :: d ++
    sq :: ',' :: ' ' :: sq :: "last_pushed_time".toList ++ sq :: ':' :: ' ' :: sq :: t ++ [sq]

/-- Python's `str({'last_pushed_date': d, 'last_pushed_time': t})`. -/
def statusStr (d t : List Char) : List Char :=
  lbrace :: statusMid d t ++ [rbrace]

/-- Embedding of `NewStockPusher.update_push_status`: the contents written
over the status file. -/
def update_push_status (now : DateTime) : List Char :=
  statusStr (fmtDate now.date) (fmtTime now.time)

/-- Consume an expected literal prefix, returning the rest. -/
def dropLit : List Char → List Char → Option (List Char)
  | [], rest => some rest
  | _ :: _, [] => none
  | c :: cs, d :: ds => if c = d then dropLit cs ds else none

/-- Consume characters up to (and including) the next single quote,
returning the consumed span and the rest; fails if no quote follows. -/
def takeToQuote : List Char → Option (List Char × List Char)
  | [] => none
  | c :: cs =>
    if c = sq then some ([], cs)
    else
      match takeToQuote cs with
      | none => none
      | some (v, rest) => some (c :: v, rest)

/-- Literal up to and including the quote that opens the date value. -/
def litDateKey : List Char :=
  lbrace :: sq :: "last_pushed_date".toList ++ [sq, ':', ' ', sq]

/-- Literal between the date value's closing quote and the time value's
opening quote. -/
def litTimeKey : List Char :=
  ',' :: ' ' :: sq :: "last_pushed_time".toList ++ [sq, ':', ' ', sq]

/-- Model of the source's evaluation of the stored text, restricted to the
exact shape `update_push_status` writes.  Any other content is a parse
failure (in the source: an exception swallowed by the bare `except`, or a
value whose `last_pushed_date` entry cannot match a real date string). -/
def parseStatus (cs : List Char) : Option PushStatus :=
  match dropLit litDateKey cs with
  | none => none
  | some r1 =>
    match takeToQuote r1 with
    | none => none
    | some (d, r2) =>
      match dropLit litTimeKey r2 with
      | none => none
      | some r3 =>
        match takeToQuote r3 with
        | none => none
        | some (t, r4) =>
          if r4 = [rbrace] then some { last_pushed_date := d, last_pushed_time := t } else none

/-- Python's `str.strip()`: drop whitespace from both ends. -/
def pyStrip (cs : List Char) : List Char :=
  ((cs.dropWhile Char.isWhitespace).reverse.dropWhile Char.isWhitespace).reverse

/-- Embedding of `NewStockPusher.has_pushed_today` over the status-file
contents; `now` stands for the `datetime.now()` sample of the cycle. -/
def has_pushed_today (file : Option (List Char)) (now : DateTime) : Bool :=
  match file with
  | none => false
  | some contents =>
    let data := pyStrip contents
    if data.isEmpty then
      false
    else
      match parseStatus data with
      | none => false
      | some status => status.last_pushed_date == fmtDate now.date

/-! ### Data-source client and notifier -/

/-- One element of `soup.select('.stock-item')`: the three sub-selections,
each of which may be missing (`select_one` returning `None`). -/
structure RawItem where
  name : Option String
  code : Option String
  price : Option String
deriving DecidableEq, Repr

/-- Sentinel returned when the page parses but holds no listings. -/
def noStocksMsg : String := "今日无新股信息"

/-- Formatting of one listing inside `crawl_new_stocks`. -/
def fmtStockItem (item : RawItem) : String :=
  (item.name.getD "未知") ++ "（" ++ (item.code.getD "未知") ++ "）- 发行价：" ++ (item.price.getD "未知")

/-- Embedding of `NewStockPusher.crawl_new_stocks`.  The argument is the
outcome of the HTTP fetch and HTML parse: `none` when any step raises (the
source returns `None` from its `except`), `some items` the elements the
page selector found. -/
def crawl_new_stocks (fetched : Option (List RawItem)) : Option (List String) :=
  match fetched with
  | none => none
  | some items =>
    let stocks := (items.take 5).map fmtStockItem
    some (if stocks.isEmpty then [noStocksMsg] else stocks)

/-- Embedding of `NewStockPusher.send_wechat_message`.  `webhook` is the
`WECHAT_WEBHOOK` environment value; `errcode` is the application-level code
in the webhook's JSON response, `none` when the POST or the response parse
raises (or the response has no `errcode` field). -/
def send_wechat_message (webhook : String) (_content : String) (errcode : Option Int) : Bool :=
  if webhook.isEmpty then
    false
  else
    match errcode with
    | none => false
    | some code => code == 0

/-- The numbered-list formatting `'\n'.join(f"{i+1}. {stock}" …)` of the
loop body. -/
def formatContent (stocks : List String) : String :=
  String.intercalate "\n" (stocks.enum.map (fun p => toString (p.1 + 1) ++ ". " ++ p.2))

/-! ### Scheduler loop -/

/-- Sleep computed by the `has_pushed_today` and push-success branches:
seconds from `now` until 08:00:00 of the following day
(`(now + timedelta(days=1)).replace(hour=8, minute=0, second=0, …) - now`). -/
def sleepUntil8NextDay (now : DateTime) : Int :=
  (((now.date.toordinal + 1) * 86400 + 8 * 3600 : Nat) : Int) - (toSeconds now : Int)

/-- Replacement of the time-of-day fields, as `datetime.replace(hour=h,
minute=m, second=0, microsecond=0)`. -/
def DateTime.replaceTime (dt : DateTime) (h m : Nat) : DateTime :=
  { date := dt.date, time := { hour := h, minute := m, second := 0 } }

/-- Sleep computed by the outside-trading-hours branch of the loop. -/
def outsideSleep (now : DateTime) : Int :=
  let m_start := now.replaceTime trading_hours.morning.1 trading_hours.morning.2.1
  let a_start := now.replaceTime trading_hours.afternoon.1 trading_hours.afternoon.2.1
  if toSeconds now < toSeconds m_start then
    (toSeconds m_start : Int) - (toSeconds now : Int)
  else if toSeconds now < toSeconds a_start then
    (toSeconds a_start : Int) - (toSeconds now : Int)
  else
    3600

/-- The sleep a loop cycle ends in, one constructor per `continue`/branch
of the loop body, carrying the computed duration where it is not a fixed
constant. -/
inductive Action where
  | sleepNotTradingDay
  | sleepAlreadyPushed (secs : Int)
  | sleepOutsideHours (secs : Int)
  | sleepFetchFailed
  | pushedAndSleep (secs : Int)
  | sleepSendFailed
deriving DecidableEq, Repr

/-- Seconds actually passed to `time.sleep` for each action; the computed
durations are clamped by `max(0, …)` in the source. -/
def actionSleep : Action → Int
  | .sleepNotTradingDay => 6 * 3600
  | .sleepAlreadyPushed s => max 0 s
  | .sleepOutsideHours s => max 0 s
  | .sleepFetchFailed => 30 * 60
  | .pushedAndSleep s => max 0 s
  | .sleepSendFailed => 30 * 60

/-- Per-cycle nondeterminism: the clock sample, the fetch outcome and the
webhook response for the cycle's send attempt (unused when no send
happens). -/
structure CycleInput where
  now : DateTime
  fetched : Option (List RawItem)
  errcode : Option Int
deriving DecidableEq, Repr

/-- What one execution of the loop body did. -/
structure CycleResult where
  file : Option (List Char)
  action : Action
  fetchCalled : Bool
  notifyCalled : Bool
  sentContent : Option String
  recorded : Bool
deriving DecidableEq, Repr

/-- Embedding of one iteration of the `while True` body of
`NewStockPusher.run`, over the status-file contents. -/
def stepLoop (testMode : Bool) (webhook : String) (inp : CycleInput)
    (file : Option (List Char)) : CycleResult :=
  if !(is_trading_day testMode inp.now) then
    { file := file, action := .sleepNotTradingDay, fetchCalled := false,
      notifyCalled := false, sentContent := none, recorded := false }
  else if has_pushed_today file inp.now then
    { file := file, action := .sleepAlreadyPushed (sleepUntil8NextDay inp.now),
      fetchCalled := false, notifyCalled := false, sentContent := none, recorded := false }
  else if !(is_in_trading_hours testMode inp.now) then
    { file := file, action := .sleepOutsideHours (outsideSleep inp.now),
      fetchCalled := false, notifyCalled := false, sentContent := none, recorded := false }
  else
    match crawl_new_stocks inp.fetched with
    | none =>
      { file := file, action := .sleepFetchFailed, fetchCalled := true,
        notifyCalled := false, sentContent := none, recorded := false }
    | some stocks =>
      if stocks.isEmpty then
        { file := file, action := .sleepFetchFailed, fetchCalled := true,
          notifyCalled := false, sentContent := none, recorded := false }
      else
        if send_wechat_message webhook (formatContent stocks) inp.errcode then
          { file := some (update_push_status inp.now),
            action := .pushedAndSleep (sleepUntil8NextDay inp.now), fetchCalled := true,
            notifyCalled := true, sentContent := some (formatContent stocks), recorded := true }
        else
          { file := file, action := .sleepSendFailed, fetchCalled := true,
            notifyCalled := true, sentContent := some (formatContent stocks), recorded := false }

/-- The loop run over a list of cycle inputs, pairing each input with what
its cycle did; the status file is threaded through. -/
def runTrace (testMode : Bool) (webhook : String) :
    Option (List Char) → List CycleInput → List (CycleInput × CycleResult)
  | _, [] => []
  | file, inp :: rest =>
    let r := stepLoop testMode webhook inp file
    (inp, r) :: runTrace testMode webhook r.file rest

/-- Number of cycles of a run that recorded a successful push. -/
def pushCount (testMode : Bool) (webhook : String) (file : Option (List Char))
    (inps : List CycleInput) : Nat :=
  (runTrace testMode webhook file inps).countP (fun p => p.2.recorded)

/-! ### Process entry point (`__main__` block) -/

/-- Modelled from the Python standard library: the `os` module has no
`argv` attribute (command-line arguments live in `sys.argv`), so the
attribute access `os.argv` on line 203 raises `AttributeError`. -/
def osHasArgv : Bool := false

/-- Module-level names bound by the import statements on lines 1–6 of the
source.  `sys` is not among them, so evaluating `sys.exit(0)` would raise
`NameError`. -/
def importedNames : List String :=
  ["os", "time", "logging", "requests", "datetime", "timedelta", "BeautifulSoup"]

/-- Outcome of running the `__main__` block. -/
inductive MainOutcome where
  | exited (code : Nat) (ledgerDeleted : Bool)
  | loopStarted
  | crashed (error : String)
deriving DecidableEq, Repr

/-- Embedding of the `__main__` block (lines 201–210): the intended
behaviour of each branch, gated on the names the branch actually evaluates
resolving.  `ledgerExists` is whether the status file is present. -/
def mainEntry (argv : List String) (ledgerExists : Bool) : MainOutcome :=
  if !osHasArgv then
    .crashed "AttributeError: module os has no attribute argv"
  else if argv.length > 1 && (argv.get? 1 == some "clear") then
    if importedNames.contains "sys" then
      .exited 0 ledgerExists
    else
      .crashed "NameError: name sys is not defined"
  else
    .loopStarted

/-! ### Helper lemmas: digits, serialization round-trip -/

theorem digitChar_fin_ne_sq : ∀ k : Fin 10, Nat.digitChar k.val ≠ sq := by decide

theorem digitChar_fin_inj : ∀ a b : Fin 10, Nat.digitChar a.val = Nat.digitChar b.val → a = b := by
  decide

theorem digitChar_mod_ne_sq (n : Nat) : Nat.digitChar (n % 10) ≠ sq :=
  digitChar_fin_ne_sq ⟨n % 10, Nat.mod_lt _ (by omega)⟩

theorem digitChar_inj (a b : Nat) (ha : a < 10) (hb : b < 10)
    (h : Nat.digitChar a = Nat.digitChar b) : a = b :=
  congrArg Fin.val (digitChar_fin_inj ⟨a, ha⟩ ⟨b, hb⟩ h)

theorem fmtDate_no_sq (d : Date) : ∀ c ∈ fmtDate d, c ≠ sq := by
  intro c hc
  simp [fmtDate, pad4, pad2] at hc
  rcases hc with hc | hc | hc | hc | hc | hc | hc | hc | hc | hc <;>
    (subst hc; first
      | exact digitChar_mod_ne_sq _
      | decide)

theorem fmtTime_no_sq (t : TimeOfDay) : ∀ c ∈ fmtTime t, c ≠ sq := by
  intro c hc
  simp [fmtTime, pad2] at hc
  rcases hc with hc | hc | hc | hc | hc | hc | hc | hc <;>
    (subst hc; first
      | exact digitChar_mod_ne_sq _
      | decide)

theorem dropLit_append (lit rest : List Char) : dropLit lit (lit ++ rest) = some rest := by
  induction lit with
  | nil => rfl
  | cons c cs ih => simp [dropLit, ih]

theorem takeToQuote_append (v rest : List Char) (hv : ∀ c ∈ v, c ≠ sq) :
    takeToQuote (v ++ sq :: rest) = some (v, rest) := by
  induction v with
  | nil => simp [takeToQuote]
  | cons c cs ih =>
    have hc : c ≠ sq := hv c (by simp)
    simp [takeToQuote, hc, ih (fun x hx => hv x (by simp [hx]))]

theorem statusStr_decomp (d t : List Char) :
    statusStr d t = litDateKey ++ (d ++ sq :: (litTimeKey ++ (t ++ sq :: [rbrace]))) := by
  simp [statusStr, statusMid, litDateKey, litTimeKey]

theorem parseStatus_statusStr (d t : List Char)
    (hd : ∀ c ∈ d, c ≠ sq) (ht : ∀ c ∈ t, c ≠ sq) :
    parseStatus (statusStr d t) = some { last_pushed_date := d, last_pushed_time := t } := by
  rw [statusStr_decomp]
  simp [parseStatus, dropLit_append, takeToQuote_append _ _ hd, takeToQuote_append _ _ ht]

theorem pyStrip_statusStr (d t : List Char) : pyStrip (statusStr d t) = statusStr d t := by
  have h1 : lbrace.isWhitespace = false := by decide
  have h2 : rbrace.isWhitespace = false := by decide
  simp [pyStrip, statusStr, List.dropWhile_cons, h1, h2, List.reverse_append]

theorem statusStr_not_empty (d t : List Char) : (statusStr d t).isEmpty = false := by
  simp [statusStr]

theorem has_pushed_today_update (now now' : DateTime) :
    has_pushed_today (some (update_push_status now)) now' =
      (fmtDate now.date == fmtDate now'.date) := by
  simp [has_pushed_today, update_push_status, pyStrip_statusStr,
    parseStatus_statusStr _ _ (fmtDate_no_sq _) (fmtTime_no_sq _), statusStr_not_empty]

theorem fmtDate_inj (d1 d2 : Date)
    (h1y : d1.year ≤ 9999) (h1m : d1.month ≤ 99) (h1d : d1.day ≤ 99)
    (h2y : d2.year ≤ 9999) (h2m : d2.month ≤ 99) (h2d : d2.day ≤ 99)
    (h : fmtDate d1 = fmtDate d2) : d1 = d2 := by
  simp [fmtDate, pad4, pad2] at h
  obtain ⟨e1, e2, e3, e4, e5, e6, e7, e8⟩ := h
  have g1 := digitChar_inj _ _ (Nat.mod_lt _ (by omega)) (Nat.mod_lt _ (by omega)) e1
  have g2 := digitChar_inj _ _ (Nat.mod_lt _ (by omega)) (Nat.mod_lt _ (by omega)) e2
  have g3 := digitChar_inj _ _ (Nat.mod_lt _ (by omega)) (Nat.mod_lt _ (by omega)) e3
  have g4 := digitChar_inj _ _ (Nat.mod_lt _ (by omega)) (Nat.mod_lt _ (by omega)) e4
  have g5 := digitChar_inj _ _ (Nat.mod_lt _ (by omega)) (Nat.mod_lt _ (by omega)) e5
  have g6 := digitChar_inj _ _ (Nat.mod_lt _ (by omega)) (Nat.mod_lt _ (by omega)) e6
  have g7 := digitChar_inj _ _ (Nat.mod_lt _ (by omega)) (Nat.mod_lt _ (by omega)) e7
  have g8 := digitChar_inj _ _ (Nat.mod_lt _ (by omega)) (Nat.mod_lt _ (by omega)) e8
  cases d1
  cases d2
  simp_all
  omega

/-! ### Helper lemmas: calendar policy and scheduler loop -/

theorem is_trading_day_congr (t : Bool) (n1 n2 : DateTime) (h : n1.date = n2.date) :
    is_trading_day t n1 = is_trading_day t n2 := by
  simp [is_trading_day, h]

/-- Every branch of the loop body either records nothing and leaves the
status file alone, or records a push, writes the file, and did so on a
trading day the ledger had not yet marked. -/
theorem stepLoop_spec (t : Bool) (w : String) (inp : CycleInput) (file : Option (List Char)) :
    ((stepLoop t w inp file).recorded = false ∧ (stepLoop t w inp file).file = file) ∨
    ((stepLoop t w inp file).recorded = true ∧
      (stepLoop t w inp file).file = some (update_push_status inp.now) ∧
      is_trading_day t inp.now = true ∧ has_pushed_today file inp.now = false) := by
  unfold stepLoop
  repeat' split
  all_goals simp_all

theorem stepLoop_marked (t : Bool) (w : String) (inp : CycleInput) (file : Option (List Char))
    (htd : is_trading_day t inp.now = true) (hp : has_pushed_today file inp.now = true) :
    stepLoop t w inp file =
      { file := file, action := .sleepAlreadyPushed (sleepUntil8NextDay inp.now),
        fetchCalled := false, notifyCalled := false, sentContent := none, recorded := false } := by
  simp [stepLoop, htd, hp]

/-- A run that starts at a file the ledger reads as already-pushed for date
`d`, on a trading day, over cycles that all happen on date `d`, does
nothing but sleep until the next morning. -/
theorem runTrace_marked (t : Bool) (w : String) (file : Option (List Char)) (d : Date)
    (inps : List CycleInput)
    (hfile : ∀ now : DateTime, now.date = d → has_pushed_today file now = true)
    (htd : ∀ now : DateTime, now.date = d → is_trading_day t now = true)
    (hd : ∀ i ∈ inps, i.now.date = d) :
    runTrace t w file inps = inps.map (fun i => (i,
      { file := file, action := .sleepAlreadyPushed (sleepUntil8NextDay i.now),
        fetchCalled := false, notifyCalled := false, sentContent := none,
        recorded := false })) := by
  induction inps with
  | nil => rfl
  | cons inp rest ih =>
    have hdate : inp.now.date = d := hd inp (by simp)
    have hstep := stepLoop_marked t w inp file (htd _ hdate) (hfile _ hdate)
    simp only [runTrace, hstep, List.map_cons]
    exact congrArg _ (ih (fun i hi => hd i (by simp [hi])))

theorem pushCount_cons (t : Bool) (w : String) (file : Option (List Char))
    (inp : CycleInput) (rest : List CycleInput) :
    pushCount t w file (inp :: rest) =
      pushCount t w (stepLoop t w inp file).file rest +
        (if (stepLoop t w inp file).recorded then 1 else 0) := by
  simp [pushCount, runTrace, List.countP_cons]

theorem pushCount_marked_zero (t : Bool) (w : String) (file : Option (List Char)) (d : Date)
    (inps : List CycleInput)
    (hfile : ∀ now : DateTime, now.date = d → has_pushed_today file now = true)
    (htd : ∀ now : DateTime, now.date = d → is_trading_day t now = true)
    (hd : ∀ i ∈ inps, i.now.date = d) :
    pushCount t w file inps = 0 := by
  unfold pushCount
  rw [runTrace_marked t w file d inps hfile htd hd]
  simp [List.countP_eq_zero]

/-- If a cycle on date `d` records a push, the file it writes reads back as
already-pushed for every later clock sample on date `d`. -/
theorem recorded_file_marks_date (t : Bool) (w : String) (inp : CycleInput)
    (file : Option (List Char)) (d : Date) (hdate : inp.now.date = d)
    (hrec : (stepLoop t w inp file).recorded = true) :
    (∀ now : DateTime, now.date = d → has_pushed_today (stepLoop t w inp file).file now = true) ∧
    (∀ now : DateTime, now.date = d → is_trading_day t now = true) := by
  rcases stepLoop_spec t w inp file with ⟨h1, _⟩ | ⟨_, hfile, htd, _⟩
  · rw [hrec] at h1
    exact absurd h1 (by simp)
  · constructor
    · intro now hnow
      rw [hfile, has_pushed_today_update, hdate, hnow]
      simp
    · intro now hnow
      rw [is_trading_day_congr t now inp.now (by rw [hnow, hdate])]
      exact htd

theorem pushCount_le_one_aux (t : Bool) (w : String) (d : Date) :
    ∀ (inps : List CycleInput) (file : Option (List Char)),
      (∀ i ∈ inps, i.now.date = d) → pushCount t w file inps ≤ 1 := by
  intro inps
  induction inps with
  | nil => intro file _; simp [pushCount, runTrace]
  | cons inp rest ih =>
    intro file hd
    have hrest : ∀ i ∈ rest, i.now.date = d := fun i hi => hd i (by simp [hi])
    have hdate : inp.now.date = d := hd inp (by simp)
    rw [pushCount_cons]
    by_cases hrec : (stepLoop t w inp file).recorded = true
    · obtain ⟨hfile', htd'⟩ := recorded_file_marks_date t w inp file d hdate hrec
      rw [pushCount_marked_zero t w _ d rest hfile' htd' hrest]
      simp [hrec]
    · have := ih (stepLoop t w inp file).file hrest
      simp only [Bool.not_eq_true] at hrec
      simp [hrec]
      omega

/-- Peeling a trace decomposition back to the inputs: the cycle at `p` was
a `stepLoop` from some intermediate file, its input occurs in the input
list, and everything after it is the trace of a sub-list of inputs started
from the file that cycle left behind. -/
theorem runTrace_decomp (t : Bool) (w : String) :
    ∀ (inps : List CycleInput) (file : Option (List Char))
      (pre : List (CycleInput × CycleResult)) (p : CycleInput × CycleResult)
      (post : List (CycleInput × CycleResult)),
      runTrace t w file inps = pre ++ p :: post →
      ∃ f2 inps2, (∀ i ∈ inps2, i ∈ inps) ∧ p.1 ∈ inps ∧ p.2 = stepLoop t w p.1 f2 ∧
        post = runTrace t w p.2.file inps2 := by
  intro inps
  induction inps with
  | nil =>
    intro file pre p post h
    simp [runTrace] at h
  | cons inp rest ih =>
    intro file pre p post h
    simp only [runTrace] at h
    cases pre with
    | nil =>
      simp only [List.nil_append, List.cons.injEq] at h
      obtain ⟨hp, hpost⟩ := h
      subst hp
      exact ⟨file, rest, fun i hi => by simp [hi], by simp, by simp, hpost.symm⟩
    | cons x pre' =>
      simp only [List.cons_append, List.cons.injEq] at h
      obtain ⟨_, h'⟩ := h
      obtain ⟨f2, inps2, hsub, hmem, hstep, hpost⟩ := ih _ pre' p post h'
      exact ⟨f2, inps2, fun i hi => by simp [hsub i hi], by simp [hmem], hstep, hpost⟩

/-! ### Claim theorems -/

/-- C3: with the test-mode override off, `is_in_trading_hours` returns true
exactly when the (hour, minute) pair lies lexicographically within
[09:30, 11:30] or [13:00, 15:00]; all four boundaries are inclusive (09:30,
11:30, 13:00 and 15:00 give true; 09:29 and 15:01 give false); with the
override on it returns true for every clock sample. -/
theorem trading_hours_window_spec :
    (∀ now : DateTime, is_in_trading_hours true now = true) ∧
    (∀ now : DateTime, is_in_trading_hours false now = true ↔
      ((lexLE 9 30 now.time.hour now.time.minute ∧ lexLE now.time.hour now.time.minute 11 30) ∨
       (lexLE 13 0 now.time.hour now.time.minute ∧ lexLE now.time.hour now.time.minute 15 0))) ∧
    is_in_trading_hours false (mondayAt 9 30) = true ∧
    is_in_trading_hours false (mondayAt 11 30) = true ∧
    is_in_trading_hours false (mondayAt 13 0) = true ∧
    is_in_trading_hours false (mondayAt 15 0) = true ∧
    is_in_trading_hours false (mondayAt 9 29) = false ∧
    is_in_trading_hours false (mondayAt 15 1) = false := by
  refine ⟨fun now => rfl, fun now => ?_, by decide, by decide, by decide, by decide,
    by decide, by decide⟩
  simp [is_in_trading_hours, trading_hours, lexLE]
  omega

/-- C4: with the test-mode override off, `is_trading_day` returns true
exactly when the weekday is Monday–Friday (0–4 in the 0 = Monday scheme of
Python's `date.weekday`) and false on Saturday and Sunday; with the
override on it returns true always.  The concrete anchors validate the
weekday model on a known week (2026-10-12 is a Monday). -/
theorem trading_day_weekday_spec :
    (∀ now : DateTime, is_trading_day true now = true) ∧
    (∀ now : DateTime, is_trading_day false now = true ↔ now.date.weekday < 5) ∧
    Date.weekday ⟨2026, 10, 12⟩ = 0 ∧
    Date.weekday ⟨2026, 10, 16⟩ = 4 ∧
    Date.weekday ⟨2026, 10, 17⟩ = 5 ∧
    Date.weekday ⟨2026, 10, 18⟩ = 6 ∧
    is_trading_day false (mondayAt 10 0) = true ∧
    is_trading_day false ⟨⟨2026, 10, 17⟩, ⟨10, 0, 0⟩⟩ = false ∧
    is_trading_day false ⟨⟨2026, 10, 18⟩, ⟨10, 0, 0⟩⟩ = false := by
  refine ⟨fun now => rfl, fun now => ?_, by decide, by decide, by decide, by decide,
    by decide, by decide, by decide⟩
  simp [is_trading_day]

/-- C2: `has_pushed_today` returns false when the store is absent, empty or
unparseable, and returns true only when the stored `last_pushed_date`
equals the current date rendered as YYYY-MM-DD. -/
theorem has_pushed_today_fail_open (now : DateTime) (contents : List Char) :
    has_pushed_today none now = false ∧
    (pyStrip contents = [] → has_pushed_today (some contents) now = false) ∧
    (parseStatus (pyStrip contents) = none → has_pushed_today (some contents) now = false) ∧
    (has_pushed_today (some contents) now = true →
      ∃ st, parseStatus (pyStrip contents) = some st ∧
        st.last_pushed_date = fmtDate now.date) := by
  refine ⟨rfl, ?_, ?_, ?_⟩
  · intro h
    simp [has_pushed_today, h]
  · intro h
    simp [has_pushed_today, h]
  · intro h
    simp only [has_pushed_today] at h
    by_cases he : (pyStrip contents).isEmpty = true
    · rw [if_pos he] at h
      exact absurd h (by simp)
    · rw [if_neg he] at h
      cases hp : parseStatus (pyStrip contents) with
      | none =>
        rw [hp] at h
        exact absurd h (by simp)
      | some st =>
        rw [hp] at h
        exact ⟨st, rfl, by simpa using h⟩

/-- C5: writing the ledger at `now` and reading it back through the textual
serialization yields true for every clock sample on the same calendar date
and false for every sample on a different date (within the ranges a Python
`datetime` can hold). -/
theorem record_then_query_roundtrip (now now' : DateTime)
    (hy : now.date.year ≤ 9999) (hm : now.date.month ≤ 99) (hd : now.date.day ≤ 99)
    (hy' : now'.date.year ≤ 9999) (hm' : now'.date.month ≤ 99) (hd' : now'.date.day ≤ 99) :
    has_pushed_today (some (update_push_status now)) now' = (now.date == now'.date) := by
  rw [has_pushed_today_update]
  by_cases h : now.date = now'.date
  · rw [h]
    simp
  · have hne : fmtDate now.date ≠ fmtDate now'.date :=
      fun he => h (fmtDate_inj _ _ hy hm hd hy' hm' hd' he)
    rw [beq_eq_false_iff_ne.mpr hne, beq_eq_false_iff_ne.mpr h]

/-- C1: over any sequence of loop cycles all falling on one calendar date,
at most one cycle records a successful notification; and once some cycle
has recorded, every later cycle of the sequence goes straight to the
already-pushed branch — it sleeps until 08:00 the next day and invokes
neither the fetch nor the notifier. -/
theorem at_most_one_push_per_date (t : Bool) (w : String) (file0 : Option (List Char))
    (inps : List CycleInput) (d : Date) (hdates : ∀ i ∈ inps, i.now.date = d) :
    pushCount t w file0 inps ≤ 1 ∧
    (∀ pre p post, runTrace t w file0 inps = pre ++ p :: post → p.2.recorded = true →
      ∀ q ∈ post, q.2.action = Action.sleepAlreadyPushed (sleepUntil8NextDay q.1.now) ∧
        q.2.fetchCalled = false ∧ q.2.notifyCalled = false ∧ q.2.recorded = false) := by
  constructor
  · exact pushCount_le_one_aux t w d inps file0 hdates
  · intro pre p post hdec hrec q hq
    obtain ⟨f2, inps2, hsub, hmem, hstep, hpost⟩ :=
      runTrace_decomp t w inps file0 pre p post hdec
    have hdate : p.1.now.date = d := hdates _ hmem
    rw [hstep] at hrec
    obtain ⟨hfile', htd'⟩ := recorded_file_marks_date t w p.1 f2 d hdate hrec
    have hmarked := runTrace_marked t w (stepLoop t w p.1 f2).file d inps2 hfile' htd'
      (fun i hi => hdates i (hsub i hi))
    rw [hpost, hstep, hmarked] at hq
    simp only [List.mem_map] at hq
    obtain ⟨i, _, hqi⟩ := hq
    rw [← hqi]
    simp

/-- C6: the ledger is written exactly on cycles whose send attempt
succeeded: a cycle that records nothing leaves the file unchanged, a fetch
failure sleeps 30 minutes without invoking the notifier, and a delivery
failure sleeps 30 minutes without recording. -/
theorem ledger_only_on_send_success (t : Bool) (w : String) (inp : CycleInput)
    (file : Option (List Char)) :
    ((stepLoop t w inp file).recorded = false → (stepLoop t w inp file).file = file) ∧
    ((stepLoop t w inp file).recorded = true →
      (stepLoop t w inp file).file = some (update_push_status inp.now) ∧
      (stepLoop t w inp file).notifyCalled = true) ∧
    (is_trading_day t inp.now = true → has_pushed_today file inp.now = false →
      is_in_trading_hours t inp.now = true → crawl_new_stocks inp.fetched = none →
      stepLoop t w inp file = ⟨file, .sleepFetchFailed, true, false, none, false⟩ ∧
      actionSleep Action.sleepFetchFailed = 30 * 60) ∧
    ((stepLoop t w inp file).notifyCalled = true →
      ∃ c, (stepLoop t w inp file).sentContent = some c ∧
        (stepLoop t w inp file).recorded = send_wechat_message w c inp.errcode ∧
        (send_wechat_message w c inp.errcode = false →
          (stepLoop t w inp file).action = Action.sleepSendFailed ∧
          (stepLoop t w inp file).file = file ∧
          actionSleep Action.sleepSendFailed = 30 * 60)) := by
  refine ⟨?_, ?_, ?_, ?_⟩
  · intro h
    rcases stepLoop_spec t w inp file with ⟨_, hf⟩ | ⟨h1, _⟩
    · exact hf
    · simp [h] at h1
  · intro h
    unfold stepLoop at h ⊢
    repeat' split at h
    all_goals simp_all
  · intro h1 h2 h3 h4
    refine ⟨?_, rfl⟩
    simp [stepLoop, h1, h2, h3, h4]
  · intro h
    unfold stepLoop at h ⊢
    repeat' split at h
    all_goals simp_all [actionSleep]

/-- C8: in the outside-trading-hours state the cycle sleeps: until today's
09:30 start when before it (09:30 is second 34200 of the day), else until
today's 13:00 start when before it (second 46800), else a flat 3600
seconds; the slept duration is clamped to be non-negative. -/
theorem outside_hours_sleep_spec (t : Bool) (w : String) (inp : CycleInput)
    (file : Option (List Char))
    (h1 : is_trading_day t inp.now = true)
    (h2 : has_pushed_today file inp.now = false)
    (h3 : is_in_trading_hours t inp.now = false) :
    stepLoop t w inp file = ⟨file, .sleepOutsideHours (outsideSleep inp.now), false, false, none, false⟩ ∧
    outsideSleep inp.now =
      (if inp.now.time.hour * 3600 + inp.now.time.minute * 60 + inp.now.time.second < 34200 then
        (34200 : Int) - ((inp.now.time.hour * 3600 + inp.now.time.minute * 60 +
          inp.now.time.second : Nat) : Int)
      else if inp.now.time.hour * 3600 + inp.now.time.minute * 60 + inp.now.time.second < 46800 then
        (46800 : Int) - ((inp.now.time.hour * 3600 + inp.now.time.minute * 60 +
          inp.now.time.second : Nat) : Int)
      else 3600) ∧
    0 ≤ actionSleep (Action.sleepOutsideHours (outsideSleep inp.now)) := by
  refine ⟨by simp [stepLoop, h1, h2, h3], ?_, le_max_left 0 _⟩
  simp only [outsideSleep, toSeconds, DateTime.replaceTime, trading_hours]
  split_ifs <;> push_cast <;> omega

/-- C9: a fetch that succeeds with zero listings yields the non-empty
sentinel list (distinct from the `none` failure result), and the loop
treats it as a completed check: the notifier is invoked with the
placeholder message and, on delivery success, the ledger is written and the
cycle's sleep targets 08:00 the following day. -/
theorem zero_listings_sentinel_spec (t : Bool) (w : String) (file : Option (List Char))
    (inp : CycleInput) (hf : inp.fetched = some [])
    (h1 : is_trading_day t inp.now = true)
    (h2 : has_pushed_today file inp.now = false)
    (h3 : is_in_trading_hours t inp.now = true)
    (hs : send_wechat_message w (formatContent [noStocksMsg]) inp.errcode = true) :
    crawl_new_stocks inp.fetched = some [noStocksMsg] ∧
    [noStocksMsg] ≠ ([] : List String) ∧
    some [noStocksMsg] ≠ (none : Option (List String)) ∧
    stepLoop t w inp file = ⟨some (update_push_status inp.now), .pushedAndSleep (sleepUntil8NextDay inp.now), true, true, some (formatContent [noStocksMsg]), true⟩ := by
  have hc : crawl_new_stocks inp.fetched = some [noStocksMsg] := by
    rw [hf]
    rfl
  refine ⟨hc, by simp, by simp, ?_⟩
  simp [stepLoop, h1, h2, h3, hc, hs]

/-- C10: every successful fetch returns at most five entries: items past
the first five are discarded before the result or the sentinel is built. -/
theorem crawl_at_most_five (fetched : Option (List RawItem)) (stocks : List String)
    (h : crawl_new_stocks fetched = some stocks) : stocks.length ≤ 5 := by
  cases fetched with
  | none => simp [crawl_new_stocks] at h
  | some items =>
    simp only [crawl_new_stocks, Option.some.injEq] at h
    by_cases he : ((items.take 5).map fmtStockItem).isEmpty = true
    · rw [if_pos he] at h
      simp [← h]
    · rw [if_neg he] at h
      rw [← h]
      simp [List.length_take]

/-- C7 (code bug): the `__main__` block cannot perform the documented
`clear` behaviour.  The first expression it evaluates, `len(os.argv)`,
looks up an attribute the `os` module does not have, so every invocation
crashes with `AttributeError` instead of deleting the ledger and exiting 0
or starting the loop — and the `sys.exit(0)` call behind it names a module
the file never imports. -/
theorem clear_entry_crashes :
    (∀ (argv : List String) (ledgerExists : Bool), mainEntry argv ledgerExists =
      .crashed "AttributeError: module os has no attribute argv") ∧
    mainEntry ["new_stock_pusher.py", "clear"] true ≠ .exited 0 true ∧
    importedNames.contains "sys" = false := by
  refine ⟨fun argv le => rfl, by decide, by decide⟩

/-! ### Concrete witnesses -/

/-- Witness for C1 at a concrete two-cycle trace on Monday 2026-10-12. -/
theorem at_most_one_push_per_date_witness :
    pushCount true "w" none
      [⟨mondayAt 10 0, some [], some 0⟩, ⟨mondayAt 10 5, some [], some 0⟩] ≤ 1 :=
  (at_most_one_push_per_date true "w" none
    [⟨mondayAt 10 0, some [], some 0⟩, ⟨mondayAt 10 5, some [], some 0⟩]
    ⟨2026, 10, 12⟩ (by decide)).1

/-- Witness for C2 at a concrete corrupt store. -/
theorem has_pushed_today_fail_open_witness :
    has_pushed_today (some "garbage".toList) (mondayAt 10 0) = false :=
  (has_pushed_today_fail_open (mondayAt 10 0) "garbage".toList).2.2.1 (by decide)

/-- Witness for C5 at concrete clock samples one day apart. -/
theorem record_then_query_roundtrip_witness :
    has_pushed_today (some (update_push_status (mondayAt 9 30)))
      ⟨⟨2026, 10, 13⟩, ⟨9, 30, 0⟩⟩ = false := by
  rw [record_then_query_roundtrip (mondayAt 9 30) ⟨⟨2026, 10, 13⟩, ⟨9, 30, 0⟩⟩
    (by decide) (by decide) (by decide) (by decide) (by decide) (by decide)]
  decide

/-- Witness for C6 at a concrete cycle whose delivery fails. -/
theorem ledger_only_on_send_success_witness :
    (stepLoop true "w" ⟨mondayAt 10 0, some [], some 1⟩ none).file = none :=
  (ledger_only_on_send_success true "w" ⟨mondayAt 10 0, some [], some 1⟩ none).1 (by decide)

/-- Witness for C8 at a concrete cycle before the morning window. -/
theorem outside_hours_sleep_spec_witness :
    stepLoop false "w" ⟨mondayAt 8 0, none, none⟩ none =
      ⟨none, .sleepOutsideHours (outsideSleep (mondayAt 8 0)), false, false, none, false⟩ :=
  (outside_hours_sleep_spec false "w" ⟨mondayAt 8 0, none, none⟩ none
    (by decide) (by decide) (by decide)).1

/-- Witness for C9 at a concrete cycle with an empty listings page and a
successful send. -/
theorem zero_listings_sentinel_spec_witness :
    stepLoop true "w" ⟨mondayAt 10 0, some [], some 0⟩ none =
      ⟨some (update_push_status (mondayAt 10 0)),
        .pushedAndSleep (sleepUntil8NextDay (mondayAt 10 0)), true, true,
        some (formatContent [noStocksMsg]), true⟩ :=
  (zero_listings_sentinel_spec true "w" none ⟨mondayAt 10 0, some [], some 0⟩
    rfl (by decide) (by decide) (by decide) (by decide)).2.2.2

/-- Witness for C10 at a concrete fetch that finds seven items. -/
theorem crawl_at_most_five_witness :
    (List.replicate 5 (fmtStockItem ⟨none, none, none⟩)).length ≤ 5 :=
  crawl_at_most_five (some (List.replicate 7 ⟨none, none, none⟩))
    (List.replicate 5 (fmtStockItem ⟨none, none, none⟩)) (by decide)

end StockPusher
